import Mathlib

/-!
# prusa-hub: the PrusaLink client's status normalisation

A shallow embedding of `internal/linkclient/printer.go`, `client.go` and
`options.go`.

* Go `string` values are Lean `String`s (the payload is decoded by
  `encoding/json`, which only produces valid UTF-8).
* `float64` values are only ever copied by this code; they are carried as
  their IEEE-754 bit pattern.
* A Go `map[string]V` is an association list with pairwise distinct keys
  (`AList`); the order of its entries stands for the order in which one
  `range` loop happens to visit the map, so a statement about every `AList`
  is a statement about every map and every iteration order.
* `fmt.Println(res)` in `PrinterFromPrinterResponse` only writes to standard
  output and is left out.
* `Client.do` is a function of the client, its arguments and a `World`: the
  record of the calls it makes into `net/url`, `encoding/json` and `net/http`.
  It returns the error together with the value left behind `result`, the
  request it sent and whether it read the response body.
-/

namespace linkclient

/-! ## Data model -/

/-- A `float64`, represented by its IEEE-754 binary64 bit pattern.  The Go
zero value `0` is the pattern `0`. -/
structure Float64 where
  bits : Nat
deriving DecidableEq, Repr

instance : Zero Float64 := ⟨⟨0⟩⟩

/-- Go `map[string]V`. -/
abbrev GoMap (V : Type) : Type := AList (fun _ : String => V)

/-- Go `len(m)` of a map: the number of keys. -/
def GoMap.len {V : Type} (m : GoMap V) : Nat := m.entries.length

/-- The type `PrinterState` of printer.go is a Go `string`. -/
abbrev PrinterState : Type := String

def PrinterStateUnknown : PrinterState := "Unknown"
def PrinterStateIdle : PrinterState := "Idle"
def PrinterStateReady : PrinterState := "Ready"
def PrinterStateBusy : PrinterState := "Busy"
def PrinterStatePaused : PrinterState := "Paused"
def PrinterStatePrinting : PrinterState := "Printing"
def PrinterStateFinished : PrinterState := "Finished"
def PrinterStateStopped : PrinterState := "Stopped"
def PrinterStateError : PrinterState := "Error"
def PrinterStateAttention : PrinterState := "Attention"

structure PrinterStateFlagsResponse where
  Operational : Bool
  Paused : Bool
  Printing : Bool
  Cancelling : Bool
  Pausing : Bool
  SDReady : Bool
  Error : Bool
  ClosedOnError : Bool
  Ready : Bool
  Busy : Bool
  Finished : Bool
  LinkState : String
deriving DecidableEq, Repr

structure PrinterStateResponse where
  Text : String
  Flags : PrinterStateFlagsResponse
deriving DecidableEq, Repr

structure PrinterTelemetryResponse where
  TempBed : Float64
  TempNozzle : Float64
  PrintSpeed : Int
  ZHeight : Float64
  Material : String
deriving DecidableEq, Repr

structure PrinterTemperatureResponse where
  Actual : Float64
  Target : Float64
  Display : Float64
  Offset : Float64
deriving DecidableEq, Repr

structure PrinterResponse where
  State : PrinterStateResponse
  Telemetry : PrinterTelemetryResponse
  Temperature : GoMap PrinterTemperatureResponse

structure Temperature where
  Actual : Float64
  Target : Float64
deriving DecidableEq, Repr

structure Printer where
  State : PrinterState
  Material : String
  PrintSpeed : Int
  ToolCount : Int
  BedTemperature : Temperature
  ToolTemperatures : GoMap Temperature
  Response : PrinterResponse

/-! ## The Go standard library functions the code calls -/

/-- Go `unicode.ToUpper` on one rune.  ASCII lower-case letters move down by
32.  Outside ASCII the mapping is Go's Unicode case table; its only two
entries whose image is an ASCII character are reproduced (U+0131 to `I`,
U+017F to `S`).  Every other entry maps a non-ASCII rune to a non-ASCII rune
and is left as the identity here, which changes no comparison of the result
with an ASCII literal. -/
def unicodeToUpper (c : Char) : Char :=
  if 97 ≤ c.toNat ∧ c.toNat ≤ 122 then Char.ofNat (c.toNat - 32)
  else if c.toNat = 0x131 then 'I'
  else if c.toNat = 0x17F then 'S'
  else c

/-- Go `strings.ToUpper`: every rune mapped by `unicode.ToUpper`. -/
def stringsToUpper (s : String) : String := ⟨s.data.map unicodeToUpper⟩

/-- Go `strings.HasPrefix(s, p)`. -/
def stringsHasPrefix (s p : String) : Bool := p.data.isPrefixOf s.data

/-- Go `strings.HasSuffix(s, p)`. -/
def stringsHasSuffix (s p : String) : Bool := p.data.isSuffixOf s.data

/-- Go `strings.TrimRight(s, cutset)`: `s` without its trailing runes that
occur in `cutset`. -/
def stringsTrimRight (s cutset : String) : String :=
  ⟨s.data.rdropWhile (fun c => decide (c ∈ cutset.data))⟩

/-- Go `strings.TrimLeft(s, cutset)`: `s` without its leading runes that occur
in `cutset`. -/
def stringsTrimLeft (s cutset : String) : String :=
  ⟨s.data.dropWhile (fun c => decide (c ∈ cutset.data))⟩

/-- Go `len(s)` of a string: its number of bytes. -/
def stringsLen (s : String) : Nat := s.utf8ByteSize

/-! ## printer.go -/

/-- The function `printerStateFromStateResponse` of printer.go.  The `switch`
on `res.Flags.LinkState` is the chain of equality tests on its nine constant
cases; case `""` falls out of the switch into the flag chain, `default`
returns `Unknown`. -/
def printerStateFromStateResponse (res : PrinterStateResponse) : PrinterState :=
  if res.Flags.LinkState = "IDLE" then PrinterStateIdle
  else if res.Flags.LinkState = "READY" then PrinterStateReady
  else if res.Flags.LinkState = "BUSY" then PrinterStateBusy
  else if res.Flags.LinkState = "PRINTING" then PrinterStatePrinting
  else if res.Flags.LinkState = "PAUSED" then PrinterStatePaused
  else if res.Flags.LinkState = "FINISHED" then PrinterStateFinished
  else if res.Flags.LinkState = "STOPPED" then PrinterStateStopped
  else if res.Flags.LinkState = "ERROR" then PrinterStateError
  else if res.Flags.LinkState = "ATTENTION" then PrinterStateAttention
  else if res.Flags.LinkState = "" then
    -- Discover state from flags.
    if res.Flags.Error then PrinterStateError
    else if stringsToUpper res.Text = "BUSY" then PrinterStateBusy
    else if res.Flags.Finished then PrinterStateFinished
    else if res.Flags.Pausing || res.Flags.Paused then PrinterStatePaused
    else if res.Flags.Ready && res.Flags.Operational then PrinterStateReady
    else PrinterStateIdle
  else PrinterStateUnknown

/-- One iteration of the `range res.Temperature` loop of
`PrinterFromPrinterResponse`. -/
def temperatureStep (p : Printer) (e : Sigma (fun _ : String => PrinterTemperatureResponse)) :
    Printer :=
  if stringsHasPrefix e.1 "tool" then
    { p with
      ToolCount := p.ToolCount + 1
      ToolTemperatures := p.ToolTemperatures.insert e.1 ⟨e.2.Actual, e.2.Target⟩ }
  else if e.1 = "bed" then
    { p with BedTemperature := ⟨e.2.Actual, e.2.Target⟩ }
  else p

/-- The function `PrinterFromPrinterResponse` of printer.go. -/
def PrinterFromPrinterResponse (res : PrinterResponse) : Printer :=
  let p : Printer :=
    { State := printerStateFromStateResponse res.State
      Material := res.Telemetry.Material
      PrintSpeed := res.Telemetry.PrintSpeed
      ToolCount := 0
      BedTemperature := ⟨0, 0⟩
      ToolTemperatures := ∅
      Response := res }
  res.Temperature.entries.foldl temperatureStep p

/-! ## options.go -/

structure ClientOptions where
  Endpoint : String
  APIKey : String
deriving DecidableEq, Repr

/-- The interface `clientOption` with its two implementations, the string
types `WithEndpoint` and `WithAPIKey`. -/
inductive clientOption where
  | WithEndpoint (ep : String)
  | WithAPIKey (key : String)
deriving DecidableEq, Repr

/-- The two methods `ApplyToClientOptions` of options.go; the options are
passed by pointer in Go and returned here. -/
def clientOption.ApplyToClientOptions : clientOption → ClientOptions → ClientOptions
  | .WithEndpoint ep, o => { o with Endpoint := stringsTrimRight ep "/" ++ "/" }
  | .WithAPIKey key, o => { o with APIKey := key }

/-! ## client.go -/

/-- The struct `Client`.  Its field `httpClient` is always the default
`&http.Client{}`; what that client does is part of `World`. -/
structure Client where
  opts : ClientOptions
deriving DecidableEq, Repr

/-- The function `NewClient`: the options applied in order to the zero
`ClientOptions`. -/
def NewClient (opts : List clientOption) : Client :=
  ⟨opts.foldl (fun o opt => opt.ApplyToClientOptions o) ⟨"", ""⟩⟩

structure APIError where
  StatusCode : Int
deriving DecidableEq, Repr

/-- The method `APIError.Error`. -/
def APIError.Error (e : APIError) : String := "HTTP " ++ toString e.StatusCode

/-- A byte slice. -/
abbrev Bytes : Type := List UInt8

/-- The `*http.Request` built by `Client.do`: method, URL, the header fields in
the order of the `Header.Add` calls, and the body reader (`none` for a nil
reader). -/
structure HTTPRequest where
  Method : String
  URL : String
  Header : List (String × String)
  Body : Option Bytes
deriving DecidableEq, Repr

/-- The part of a `*http.Response` that `Client.do` looks at: the status code
and what `ioutil.ReadAll(httpRes.Body)` returns if it is called. -/
structure HTTPResponse where
  StatusCode : Int
  Body : Except String Bytes

/-- The errors `Client.do` returns: an `APIError`, or one of the six
`fmt.Errorf` wrappers, each around the error text of the failed call. -/
inductive DoError where
  | parsingEndpointURL (err : String)
  | marshalingJSON (err : String)
  | creatingHTTPRequest (err : String)
  | executingHTTPRequest (err : String)
  | apiError (e : APIError)
  | readingResponseBody (fullUrl : String) (err : String)
  | unmarshalJSONResponse (fullUrl : String) (err : String)
deriving DecidableEq, Repr

/-- Everything `Client.do` calls outside this package, for URLs of type `U`,
payloads of type `P` and result targets of type `R`. -/
structure World (U P R : Type) where
  /-- The call `url.Parse(s)`. -/
  urlParse : String → Except String U
  /-- The call `u.ResolveReference(&url.URL{Path: p})`. -/
  resolveReference : U → String → U
  /-- The call `u.String()`. -/
  urlString : U → String
  /-- The call `params.Encode()`. -/
  encode : GoMap (List String) → String
  /-- The call `json.Marshal(payload)`. -/
  marshal : P → Except String Bytes
  /-- The error, if any, of `http.NewRequestWithContext(ctx, method, url, body)`. -/
  newRequest : String → String → Option String
  /-- The call `c.httpClient.Do(httpReq)`, context included. -/
  roundTrip : HTTPRequest → Except String HTTPResponse
  /-- The call `json.Unmarshal(body, result)`: the value behind `result` after
  the call, and the error if any. -/
  unmarshal : Bytes → R → R × Option String

/-- What a call of `Client.do` leaves behind: the returned error (`none` for
nil), the value behind `result` after the call (`none` when `result` is nil),
the request handed to `httpClient.Do` if the call got that far, and whether
the response body was read. -/
structure DoResult (R : Type) where
  err : Option DoError
  result : Option R
  request : Option HTTPRequest
  bodyRead : Bool

/-- Lines 46 to 82 of `Client.do`: the request URL, the payload, the full URL
with the query, the request and its headers. -/
def Client.buildRequest {U P R : Type} (w : World U P R) (c : Client)
    (httpMethod path : String) (params : GoMap (List String)) (payload : Option P) :
    Except DoError HTTPRequest :=
  -- Build URL
  match w.urlParse c.opts.Endpoint with
  | .error err => .error (.parsingEndpointURL err)
  | .ok parsed =>
    let reqURL := w.resolveReference parsed (stringsTrimLeft path "/")
    -- Payload
    let marshalled : Except String (Option Bytes) :=
      match payload with
      | none => .ok none
      | some v =>
        match w.marshal v with
        | .error err => .error err
        | .ok j => .ok (some j)
    match marshalled with
    | .error err => .error (.marshalingJSON err)
    | .ok resBody =>
      let fullUrl :=
        if params.len > 0 then w.urlString reqURL ++ "?" ++ w.encode params
        else w.urlString reqURL
      match w.newRequest httpMethod fullUrl with
      | some err => .error (.creatingHTTPRequest err)
      | none =>
        -- Headers
        let apiKeyHeader :=
          if stringsLen c.opts.APIKey > 0 then [("X-Api-Key", c.opts.APIKey)] else []
        .ok ⟨httpMethod, fullUrl, apiKeyHeader ++ [("Content-Type", "application/json")],
          resBody⟩

/-- Lines 90 to 109 of `Client.do`: the status check and the decoding of the
body into `result`. -/
def Client.handleResponse {U P R : Type} (w : World U P R) (httpReq : HTTPRequest)
    (httpRes : HTTPResponse) (result : Option R) : DoResult R :=
  -- HTTP Error handling
  if httpRes.StatusCode ≥ 400 ∧ httpRes.StatusCode ≤ 599 then
    ⟨some (.apiError ⟨httpRes.StatusCode⟩), result, some httpReq, false⟩
  else
    -- Read response
    match result with
    | none => ⟨none, none, some httpReq, false⟩
    | some r =>
      match httpRes.Body with
      | .error err => ⟨some (.readingResponseBody httpReq.URL err), some r, some httpReq, true⟩
      | .ok body =>
        match w.unmarshal body r with
        | (r2, some err) =>
          ⟨some (.unmarshalJSONResponse httpReq.URL err), some r2, some httpReq, true⟩
        | (r2, none) => ⟨none, some r2, some httpReq, true⟩

/-- The method `Client.do` of client.go. -/
def Client.do {U P R : Type} (w : World U P R) (c : Client) (httpMethod path : String)
    (params : GoMap (List String)) (payload : Option P) (result : Option R) : DoResult R :=
  match c.buildRequest w httpMethod path params payload with
  | .error e => ⟨some e, result, none, false⟩
  | .ok httpReq =>
    match w.roundTrip httpReq with
    | .error err => ⟨some (.executingHTTPRequest err), result, some httpReq, false⟩
    | .ok httpRes => Client.handleResponse w httpReq httpRes result

/-! ## A concrete world for examples -/

/-- A world in which URLs are strings, a relative path is merged onto the base
as in RFC 3986, 5.2.3 (the base up to its last `/`, then the path), payloads
marshal to nothing, every request is answered with the given status and body,
and the only body that decodes is `{}`. -/
def exampleWorld (status : Int) (body : Except String Bytes) : World String Unit String :=
  { urlParse := fun s => .ok s
    resolveReference := fun u p => ⟨u.data.rdropWhile (fun c => decide (c ≠ '/')) ++ p.data⟩
    urlString := fun u => u
    encode := fun _ => ""
    marshal := fun _ => .ok []
    newRequest := fun _ _ => none
    roundTrip := fun _ => .ok ⟨status, body⟩
    unmarshal := fun b r =>
      if b = [123, 125] then ("decoded", none) else (r, some "invalid character") }

/-- The ten constants of type `PrinterState` declared in printer.go. -/
def printerStates : List PrinterState :=
  [PrinterStateUnknown, PrinterStateIdle, PrinterStateReady, PrinterStateBusy,
    PrinterStatePaused, PrinterStatePrinting, PrinterStateFinished, PrinterStateStopped,
    PrinterStateError, PrinterStateAttention]

/-! ## The specification's reference for the flag fallback -/

/-- Equality of the rune `c` with the rune `l` of an ASCII literal when letter
case is ignored: the same rune, the other case of an ASCII letter, or one of
the two non-ASCII runes that Unicode simple case folding identifies with an
ASCII letter (U+017F with `s`, U+212A with `k`). -/
def runeEqualFold (c l : Char) : Bool :=
  c == l
    || (65 ≤ l.toNat && l.toNat ≤ 90 && c.toNat == l.toNat + 32)
    || (97 ≤ l.toNat && l.toNat ≤ 122 && c.toNat + 32 == l.toNat)
    || ((l == 'S' || l == 's') && c.toNat == 0x17F)
    || ((l == 'K' || l == 'k') && c.toNat == 0x212A)

/-- Case-insensitive comparison of `s` with the ASCII literal `lit`: the same
number of runes, equal rune by rune when letter case is ignored. -/
def equalFold (s lit : String) : Bool :=
  s.data.length == lit.data.length && (List.zipWith runeEqualFold s.data lit.data).all id

/-- The ordered rules of the specification's flag-based fallback (4.2, step 2,
a to e): a guard on the state payload and the state it selects. -/
def fallbackRules : List ((PrinterStateResponse → Bool) × PrinterState) :=
  [ (fun r => r.Flags.Error, PrinterStateError),
    (fun r => equalFold r.Text "BUSY", PrinterStateBusy),
    (fun r => r.Flags.Finished, PrinterStateFinished),
    (fun r => r.Flags.Pausing || r.Flags.Paused, PrinterStatePaused),
    (fun r => r.Flags.Ready && r.Flags.Operational, PrinterStateReady) ]

/-- The reference decision chain: the state of the first rule whose guard
holds, `Idle` when none does (rule f). -/
def referenceFallback (res : PrinterStateResponse) : PrinterState :=
  match fallbackRules.find? (fun rule => rule.1 res) with
  | some rule => rule.2
  | none => PrinterStateIdle

/-! ## The specification's example payload -/

/-- The sensor map of the specification's example (section 8, sensor
classification): `bed` 60/60, `tool0` 210/215, `tool1` 25/0 and `chamber`, the
readings given as binary64 bit patterns. -/
def exampleTemperature : GoMap PrinterTemperatureResponse :=
  ((((∅ : GoMap PrinterTemperatureResponse).insert "chamber"
      ⟨⟨0x4041800000000000⟩, ⟨0⟩, ⟨0x4041800000000000⟩, ⟨0⟩⟩).insert "tool1"
      ⟨⟨0x4039000000000000⟩, ⟨0⟩, ⟨0x4039000000000000⟩, ⟨0⟩⟩).insert "tool0"
      ⟨⟨0x406A400000000000⟩, ⟨0x406AE00000000000⟩, ⟨0x406A400000000000⟩, ⟨0⟩⟩).insert "bed"
      ⟨⟨0x404E000000000000⟩, ⟨0x404E000000000000⟩, ⟨0x404E000000000000⟩, ⟨0⟩⟩

/-- A response carrying `exampleTemperature`. -/
def exampleResponse : PrinterResponse :=
  { State := ⟨"Operational",
      ⟨true, false, false, false, false, true, false, false, true, false, false, ""⟩⟩
    Telemetry := ⟨⟨0x404E000000000000⟩, ⟨0x406A400000000000⟩, 100, ⟨0⟩, "PETG"⟩
    Temperature := exampleTemperature }

/-- A sensor map without a `bed` entry: `Bed` and `bed0` only. -/
def nearBedTemperature : GoMap PrinterTemperatureResponse :=
  ((∅ : GoMap PrinterTemperatureResponse).insert "Bed"
      ⟨⟨0x404E000000000000⟩, ⟨0x404E000000000000⟩, ⟨0⟩, ⟨0⟩⟩).insert "bed0"
      ⟨⟨0x4039000000000000⟩, ⟨0x4039000000000000⟩, ⟨0⟩, ⟨0⟩⟩

/-! ## Lemmas on the library functions -/

theorem char_eq_iff_toNat (c d : Char) : c = d ↔ c.toNat = d.toNat := by
  constructor
  · rintro rfl; rfl
  · intro h
    have := congrArg Char.ofNat h
    simpa using this

theorem toNat_ofNat_of_lt (m : Nat) (h : m < 0xD800) : (Char.ofNat m).toNat = m := by
  have hv : m.isValidChar := Or.inl h
  unfold Char.ofNat
  rw [dif_pos hv]
  rfl

/-- The runes that `unicode.ToUpper` sends to the upper-case ASCII letter with
code `k`. -/
theorem unicodeToUpper_toNat (c : Char) (k : Nat) (hk : 65 ≤ k ∧ k ≤ 90) :
    (unicodeToUpper c).toNat = k ↔
      (c.toNat = k ∨ c.toNat = k + 32 ∨ (k = 73 ∧ c.toNat = 0x131)
        ∨ (k = 83 ∧ c.toNat = 0x17F)) := by
  unfold unicodeToUpper
  have hI : ('I' : Char).toNat = 73 := rfl
  have hS : ('S' : Char).toNat = 83 := rfl
  split_ifs with h1 h2 h3
  · rw [toNat_ofNat_of_lt _ (by omega)]
    omega
  · rw [hI]; omega
  · rw [hS]; omega
  · omega

/-- For an upper-case ASCII letter other than `I` and `K`, upper-casing to that
letter is the same as being equal to it ignoring case. -/
theorem unicodeToUpper_eq_iff_runeEqualFold (c l : Char) (hl : 65 ≤ l.toNat ∧ l.toNat ≤ 90)
    (hI : l.toNat ≠ 73) (hK : l.toNat ≠ 75) :
    unicodeToUpper c = l ↔ runeEqualFold c l = true := by
  rw [char_eq_iff_toNat, unicodeToUpper_toNat c _ hl]
  have hs : ('s' : Char).toNat = 115 := rfl
  have hS : ('S' : Char).toNat = 83 := rfl
  have hk : ('k' : Char).toNat = 107 := rfl
  have hK : ('K' : Char).toNat = 75 := rfl
  simp only [runeEqualFold, Bool.or_eq_true, Bool.and_eq_true, beq_iff_eq, decide_eq_true_eq,
    char_eq_iff_toNat c l, char_eq_iff_toNat l, hs, hS, hk, hK]
  omega

/-- The test `strings.ToUpper(text) == "BUSY"` is the case-insensitive
comparison of `text` with `"BUSY"`. -/
theorem stringsToUpper_eq_BUSY_iff (text : String) :
    stringsToUpper text = "BUSY" ↔ equalFold text "BUSY" = true := by
  have hB := fun c => unicodeToUpper_eq_iff_runeEqualFold c 'B' (by decide) (by decide)
    (by decide)
  have hU := fun c => unicodeToUpper_eq_iff_runeEqualFold c 'U' (by decide) (by decide)
    (by decide)
  have hS := fun c => unicodeToUpper_eq_iff_runeEqualFold c 'S' (by decide) (by decide)
    (by decide)
  have hY := fun c => unicodeToUpper_eq_iff_runeEqualFold c 'Y' (by decide) (by decide)
    (by decide)
  have hlit : ("BUSY" : String) = ⟨['B', 'U', 'S', 'Y']⟩ := rfl
  rw [hlit]
  unfold stringsToUpper equalFold
  rw [String.ext_iff]
  rcases text with ⟨_ | ⟨a, _ | ⟨b, _ | ⟨c, _ | ⟨d, _ | ⟨e, t⟩⟩⟩⟩⟩⟩ <;>
    simp [hB, hU, hS, hY]

/-- With an empty `link_state` the function is its flag chain. -/
theorem printerStateFromStateResponse_fallback (res : PrinterStateResponse)
    (hls : res.Flags.LinkState = "") :
    printerStateFromStateResponse res =
      if res.Flags.Error then PrinterStateError
      else if equalFold res.Text "BUSY" then PrinterStateBusy
      else if res.Flags.Finished then PrinterStateFinished
      else if res.Flags.Pausing || res.Flags.Paused then PrinterStatePaused
      else if res.Flags.Ready && res.Flags.Operational then PrinterStateReady
      else PrinterStateIdle := by
  unfold printerStateFromStateResponse
  rw [hls]
  simp only [stringsToUpper_eq_BUSY_iff]
  rfl

/-- A property of both branches of a conditional holds of the conditional. -/
theorem ite_of_both {α : Type} (P : α → Prop) (c : Prop) [Decidable c] (a b : α)
    (ha : P a) (hb : P b) : P (if c then a else b) := by
  split <;> assumption

/-! ## Lemmas on the temperature loop -/

theorem temperatureStep_State (p : Printer)
    (e : Sigma (fun _ : String => PrinterTemperatureResponse)) :
    (temperatureStep p e).State = p.State := by
  unfold temperatureStep
  split_ifs <;> rfl

theorem foldl_temperatureStep_State
    (l : List (Sigma (fun _ : String => PrinterTemperatureResponse))) (p : Printer) :
    (l.foldl temperatureStep p).State = p.State := by
  induction l generalizing p with
  | nil => rfl
  | cons e t ih => rw [List.foldl_cons, ih, temperatureStep_State]

/-- The loop over entries with pairwise distinct keys, none of them yet in
`ToolTemperatures`, adds one to `ToolCount` and one entry to
`ToolTemperatures` for every key with prefix `tool`. -/
theorem foldl_temperatureStep_tools
    (l : List (Sigma (fun _ : String => PrinterTemperatureResponse))) (hl : l.NodupKeys)
    (p : Printer) (hp : ∀ k ∈ l.keys, k ∉ p.ToolTemperatures) :
    (l.foldl temperatureStep p).ToolCount
        = p.ToolCount + ((l.keys.filter (fun k => stringsHasPrefix k "tool")).length : Int) ∧
      (l.foldl temperatureStep p).ToolTemperatures.len
        = p.ToolTemperatures.len
          + (l.keys.filter (fun k => stringsHasPrefix k "tool")).length := by
  induction l generalizing p with
  | nil => simp
  | cons e t ih =>
    rw [List.nodupKeys_cons] at hl
    obtain ⟨het, ht⟩ := hl
    have hfresh : e.1 ∉ p.ToolTemperatures := hp e.1 (by simp [List.keys_cons])
    rw [List.foldl_cons, List.keys_cons]
    by_cases htool : stringsHasPrefix e.1 "tool" = true
    · have hp2 : ∀ k ∈ t.keys, k ∉ (temperatureStep p e).ToolTemperatures := by
        intro k hk hmem
        simp only [temperatureStep, htool, if_true, AList.mem_insert] at hmem
        rcases hmem with rfl | hmem
        · exact het hk
        · exact hp k (by simp [List.keys_cons, hk]) hmem
      obtain ⟨h1, h2⟩ := ih ht (temperatureStep p e) hp2
      rw [h1, h2, List.filter_cons_of_pos (by simpa using htool)]
      simp only [temperatureStep, htool, if_true, GoMap.len,
        AList.insert_entries_of_neg hfresh, List.length_cons]
      constructor
      · push_cast; ring
      · ring
    · have hsame : (temperatureStep p e).ToolTemperatures = p.ToolTemperatures ∧
          (temperatureStep p e).ToolCount = p.ToolCount := by
        unfold temperatureStep
        rw [if_neg htool]
        split_ifs <;> exact ⟨rfl, rfl⟩
      have hp2 : ∀ k ∈ t.keys, k ∉ (temperatureStep p e).ToolTemperatures := by
        intro k hk
        rw [hsame.1]
        exact hp k (by simp [List.keys_cons, hk])
      obtain ⟨h1, h2⟩ := ih ht (temperatureStep p e) hp2
      rw [h1, h2, hsame.1, hsame.2, List.filter_cons_of_neg (by simpa using htool)]
      exact ⟨rfl, rfl⟩

/-- The loop changes neither `Material`, `PrintSpeed` nor `Response`. -/
theorem foldl_temperatureStep_frame
    (l : List (Sigma (fun _ : String => PrinterTemperatureResponse))) (p : Printer) :
    (l.foldl temperatureStep p).Material = p.Material ∧
      (l.foldl temperatureStep p).PrintSpeed = p.PrintSpeed ∧
      (l.foldl temperatureStep p).Response = p.Response := by
  induction l generalizing p with
  | nil => exact ⟨rfl, rfl, rfl⟩
  | cons e t ih =>
    rw [List.foldl_cons]
    obtain ⟨h1, h2, h3⟩ := ih (temperatureStep p e)
    rw [h1, h2, h3]
    unfold temperatureStep
    split_ifs <;> exact ⟨rfl, rfl, rfl⟩

/-- What the loop leaves in `ToolTemperatures` under a key: the reading of
that key when the key has prefix `tool` and is among the entries, the value
from before the loop otherwise. -/
theorem foldl_temperatureStep_lookup
    (l : List (Sigma (fun _ : String => PrinterTemperatureResponse))) (hl : l.NodupKeys)
    (p : Printer) (k : String) :
    (l.foldl temperatureStep p).ToolTemperatures.lookup k
      = match (if stringsHasPrefix k "tool" then l.dlookup k else none) with
        | some r => some ⟨r.Actual, r.Target⟩
        | none => p.ToolTemperatures.lookup k := by
  induction l generalizing p with
  | nil => simp
  | cons e t ih =>
    rw [List.nodupKeys_cons] at hl
    obtain ⟨het, ht⟩ := hl
    obtain ⟨a, b⟩ := e
    rw [List.foldl_cons, ih ht]
    by_cases hk : k = a
    · subst hk
      have hnone : List.dlookup k t = none := List.dlookup_eq_none.mpr het
      rw [hnone, List.dlookup_cons_eq]
      by_cases htool : stringsHasPrefix k "tool" = true
      · simp [temperatureStep, htool, AList.lookup_insert]
      · have hsame : (temperatureStep p ⟨k, b⟩).ToolTemperatures = p.ToolTemperatures := by
          unfold temperatureStep
          rw [if_neg htool]
          split_ifs <;> rfl
        simp [htool, hsame]
    · rw [List.dlookup_cons_ne t ⟨a, b⟩ hk]
      have hsame : (temperatureStep p ⟨a, b⟩).ToolTemperatures.lookup k
          = p.ToolTemperatures.lookup k := by
        unfold temperatureStep
        split_ifs
        · exact AList.lookup_insert_ne hk
        · rfl
        · rfl
      rw [hsame]

/-- What the loop leaves in `BedTemperature`: the reading of the entry named
`bed` when there is one, the value from before the loop otherwise. -/
theorem foldl_temperatureStep_bed
    (l : List (Sigma (fun _ : String => PrinterTemperatureResponse))) (hl : l.NodupKeys)
    (p : Printer) :
    (l.foldl temperatureStep p).BedTemperature
      = match l.dlookup "bed" with
        | some r => ⟨r.Actual, r.Target⟩
        | none => p.BedTemperature := by
  induction l generalizing p with
  | nil => simp
  | cons e t ih =>
    rw [List.nodupKeys_cons] at hl
    obtain ⟨het, ht⟩ := hl
    obtain ⟨a, b⟩ := e
    rw [List.foldl_cons, ih ht]
    have hbedtool : stringsHasPrefix "bed" "tool" = false := by decide
    by_cases hk : "bed" = a
    · subst hk
      have hnone : List.dlookup "bed" t = none := List.dlookup_eq_none.mpr het
      rw [hnone, List.dlookup_cons_eq]
      simp [temperatureStep, hbedtool]
    · rw [List.dlookup_cons_ne t ⟨a, b⟩ hk]
      have hsame : (temperatureStep p ⟨a, b⟩).BedTemperature = p.BedTemperature := by
        unfold temperatureStep
        split_ifs with h1 h2
        · rfl
        · exact absurd h2.symm hk
        · rfl
      rw [hsame]

/-! ## Lemmas on options.go and client.go -/

/-- The test `len(s) > 0` is the test that `s` is not the empty string. -/
theorem stringsLen_pos_iff (s : String) : stringsLen s > 0 ↔ s ≠ "" := by
  obtain ⟨l⟩ := s
  cases l with
  | nil => simp [stringsLen]; rfl
  | cons c t =>
    have hc := Char.utf8Size_pos c
    have hne : (⟨c :: t⟩ : String) ≠ "" := by
      intro h
      have := congrArg String.data h
      simp at this
    simp only [stringsLen, String.utf8ByteSize_mk, String.utf8Len_cons, gt_iff_lt, ne_eq, hne,
      not_false_eq_true, iff_true]
    omega

/-- Trailing slashes do not change what `strings.TrimRight(s, "/")` returns. -/
theorem stringsTrimRight_append_slashes (e : String) (n : Nat) :
    stringsTrimRight ⟨e.data ++ List.replicate n '/'⟩ "/" = stringsTrimRight e "/" := by
  unfold stringsTrimRight
  congr 1
  induction n with
  | zero => simp
  | succ n ih =>
    rw [List.replicate_succ', ← List.append_assoc, List.rdropWhile_concat_pos _ _ _ (by decide)]
    exact ih

/-- A string is its `strings.TrimRight(s, "/")` followed by slashes only. -/
theorem stringsTrimRight_split (e : String) :
    ∃ n : Nat, e.data = (stringsTrimRight e "/").data ++ List.replicate n '/' := by
  refine ⟨(e.data.rtakeWhile (fun c => decide (c ∈ "/".data))).length, ?_⟩
  have h1 : e.data = e.data.rdropWhile (fun c => decide (c ∈ "/".data))
      ++ e.data.rtakeWhile (fun c => decide (c ∈ "/".data)) := by
    unfold List.rdropWhile List.rtakeWhile
    rw [← List.reverse_append, List.takeWhile_append_dropWhile, List.reverse_reverse]
  have h2 : e.data.rtakeWhile (fun c => decide (c ∈ "/".data))
      = List.replicate (e.data.rtakeWhile (fun c => decide (c ∈ "/".data))).length '/' := by
    rw [List.eq_replicate_iff]
    refine ⟨rfl, fun b hb => ?_⟩
    have := List.mem_rtakeWhile_imp hb
    simpa using this
  conv_lhs => rw [h1, h2]
  rfl

/-- The result of `strings.TrimRight(s, "/")` does not end in a slash. -/
theorem stringsTrimRight_not_hasSuffix (e : String) :
    stringsHasSuffix (stringsTrimRight e "/") "/" = false := by
  unfold stringsHasSuffix stringsTrimRight
  rw [Bool.eq_false_iff]
  intro h
  rw [List.isSuffixOf_iff_suffix] at h
  obtain ⟨t, ht⟩ := h
  have hne : e.data.rdropWhile (fun c => decide (c ∈ "/".data)) ≠ [] := by
    intro h0
    simp only at ht
    rw [h0] at ht
    simp at ht
  have hlast := List.rdropWhile_last_not (fun c => decide (c ∈ "/".data)) e.data hne
  apply hlast
  have : (e.data.rdropWhile (fun c => decide (c ∈ "/".data))).getLast hne = '/' := by
    simp only at ht
    simp only [← ht]
    simp
  rw [this]
  decide

/-- Trimming a string that does not end in a slash returns it. -/
theorem stringsTrimRight_of_not_hasSuffix (t : String)
    (h : stringsHasSuffix t "/" = false) : stringsTrimRight t "/" = t := by
  obtain ⟨l⟩ := t
  unfold stringsTrimRight
  congr 1
  rw [List.rdropWhile_eq_self_iff]
  intro hl hp
  have hlast : l.getLast hl = '/' := by simpa using hp
  have hsuf : stringsHasSuffix ⟨l⟩ "/" = true := by
    unfold stringsHasSuffix
    rw [List.isSuffixOf_iff_suffix]
    refine ⟨l.dropLast, ?_⟩
    have := List.dropLast_append_getLast hl
    rw [hlast] at this
    exact this
  rw [h] at hsuf
  exact Bool.noConfusion hsuf

/-- Once the request is built and answered, `Client.do` is the handling of the
response. -/
theorem Client.do_eq_handleResponse {U P R : Type} (w : World U P R) (c : Client)
    (httpMethod path : String) (params : GoMap (List String)) (payload : Option P)
    (result : Option R) (httpReq : HTTPRequest) (httpRes : HTTPResponse)
    (hreq : c.buildRequest w httpMethod path params payload = .ok httpReq)
    (hres : w.roundTrip httpReq = .ok httpRes) :
    c.do w httpMethod path params payload result
      = Client.handleResponse w httpReq httpRes result := by
  unfold Client.do
  rw [hreq]
  simp only [hres]

/-- In every case in which a request was built, it is the request that
`Client.do` sends. -/
theorem Client.do_request {U P R : Type} (w : World U P R) (c : Client)
    (httpMethod path : String) (params : GoMap (List String)) (payload : Option P)
    (result : Option R) (httpReq : HTTPRequest)
    (hreq : c.buildRequest w httpMethod path params payload = .ok httpReq) :
    (c.do w httpMethod path params payload result).request = some httpReq := by
  unfold Client.do
  rw [hreq]
  simp only
  cases hrt : w.roundTrip httpReq with
  | error err => rfl
  | ok httpRes =>
    simp only [Client.handleResponse]
    split_ifs
    · rfl
    · cases result with
      | none => rfl
      | some r =>
        simp only
        cases httpRes.Body with
        | error err => rfl
        | ok body =>
          simp only
          split <;> rfl

/-- The URL of a built request: the endpoint parsed, the path without its
leading slashes resolved against it, and the query appended when there are
parameters. -/
theorem Client.buildRequest_URL {U P R : Type} (w : World U P R) (c : Client)
    (httpMethod path : String) (params : GoMap (List String)) (payload : Option P)
    (httpReq : HTTPRequest) (u : U)
    (hreq : c.buildRequest w httpMethod path params payload = .ok httpReq)
    (hparse : w.urlParse c.opts.Endpoint = .ok u) :
    httpReq.URL
      = if params.len > 0 then
          w.urlString (w.resolveReference u (stringsTrimLeft path "/")) ++ "?" ++ w.encode params
        else w.urlString (w.resolveReference u (stringsTrimLeft path "/")) := by
  unfold Client.buildRequest at hreq
  rw [hparse] at hreq
  simp only at hreq
  split at hreq
  · simp at hreq
  · split at hreq
    · simp at hreq
    · simp only [Except.ok.injEq] at hreq
      rw [← hreq]

/-- A leading slash of the path makes no difference to `strings.TrimLeft`. -/
theorem stringsTrimLeft_slash_append (path : String) :
    stringsTrimLeft ("/" ++ path) "/" = stringsTrimLeft path "/" := by
  unfold stringsTrimLeft
  congr 1

/-! ## State classification -/

/-- C1: whatever `state.text` and the eleven boolean flags are, a payload whose
`flags.link_state` is one of `IDLE`, `READY`, `BUSY`, `PRINTING`, `PAUSED`,
`FINISHED`, `STOPPED`, `ERROR`, `ATTENTION` is classified as `Idle`, `Ready`,
`Busy`, `Printing`, `Paused`, `Finished`, `Stopped`, `Error`, `Attention`
respectively. -/
theorem link_state_table (text : String)
    (operational paused printing cancelling pausing sdReady error closedOnError ready busy
      finished : Bool) :
    printerStateFromStateResponse ⟨text, ⟨operational, paused, printing, cancelling, pausing,
        sdReady, error, closedOnError, ready, busy, finished, "IDLE"⟩⟩ = PrinterStateIdle ∧
    printerStateFromStateResponse ⟨text, ⟨operational, paused, printing, cancelling, pausing,
        sdReady, error, closedOnError, ready, busy, finished, "READY"⟩⟩ = PrinterStateReady ∧
    printerStateFromStateResponse ⟨text, ⟨operational, paused, printing, cancelling, pausing,
        sdReady, error, closedOnError, ready, busy, finished, "BUSY"⟩⟩ = PrinterStateBusy ∧
    printerStateFromStateResponse ⟨text, ⟨operational, paused, printing, cancelling, pausing,
        sdReady, error, closedOnError, ready, busy, finished, "PRINTING"⟩⟩
      = PrinterStatePrinting ∧
    printerStateFromStateResponse ⟨text, ⟨operational, paused, printing, cancelling, pausing,
        sdReady, error, closedOnError, ready, busy, finished, "PAUSED"⟩⟩ = PrinterStatePaused ∧
    printerStateFromStateResponse ⟨text, ⟨operational, paused, printing, cancelling, pausing,
        sdReady, error, closedOnError, ready, busy, finished, "FINISHED"⟩⟩
      = PrinterStateFinished ∧
    printerStateFromStateResponse ⟨text, ⟨operational, paused, printing, cancelling, pausing,
        sdReady, error, closedOnError, ready, busy, finished, "STOPPED"⟩⟩
      = PrinterStateStopped ∧
    printerStateFromStateResponse ⟨text, ⟨operational, paused, printing, cancelling, pausing,
        sdReady, error, closedOnError, ready, busy, finished, "ERROR"⟩⟩ = PrinterStateError ∧
    printerStateFromStateResponse ⟨text, ⟨operational, paused, printing, cancelling, pausing,
        sdReady, error, closedOnError, ready, busy, finished, "ATTENTION"⟩⟩
      = PrinterStateAttention := by
  refine ⟨?_, ?_, ?_, ?_, ?_, ?_, ?_, ?_, ?_⟩ <;> simp [printerStateFromStateResponse]

/-- C2: a payload whose `flags.link_state` is non-empty and is none of the nine
keys of the table (compared exactly) is classified as `Unknown`, whatever
`state.text` and the flags are; the flag chain is not consulted. -/
theorem unknown_link_state_is_terminal (res : PrinterStateResponse)
    (hne : res.Flags.LinkState ≠ "")
    (hkey : res.Flags.LinkState ∉
      ["IDLE", "READY", "BUSY", "PRINTING", "PAUSED", "FINISHED", "STOPPED", "ERROR",
        "ATTENTION"]) :
    printerStateFromStateResponse res = PrinterStateUnknown := by
  simp only [List.mem_cons, List.mem_singleton, List.not_mem_nil, or_false, not_or] at hkey
  obtain ⟨h1, h2, h3, h4, h5, h6, h7, h8, h9⟩ := hkey
  unfold printerStateFromStateResponse
  rw [if_neg h1, if_neg h2, if_neg h3, if_neg h4, if_neg h5, if_neg h6, if_neg h7, if_neg h8,
    if_neg h9, if_neg hne]

/-- Witness for C2: `link_state = "FOO"` with `ready` and `operational` set, and
the lower-case `"printing"`, are `Unknown`; the first would be `Ready` with an
empty `link_state`. -/
theorem unknown_link_state_is_terminal_witness :
    printerStateFromStateResponse
        ⟨"", ⟨true, false, false, false, false, false, false, false, true, false, false,
          "FOO"⟩⟩ = PrinterStateUnknown ∧
      printerStateFromStateResponse
        ⟨"", ⟨true, false, false, false, false, false, false, false, true, false, false,
          "printing"⟩⟩ = PrinterStateUnknown ∧
      PrinterStateUnknown ≠ PrinterStateReady ∧
      printerStateFromStateResponse
        ⟨"", ⟨true, false, false, false, false, false, false, false, true, false, false,
          ""⟩⟩ = PrinterStateReady :=
  ⟨unknown_link_state_is_terminal _ (by decide) (by decide),
    unknown_link_state_is_terminal _ (by decide) (by decide), by decide, by decide⟩

/-- C3: with an empty `flags.link_state` the classification is the reference
first-match chain (Error if `error`; else Busy if the text is `BUSY` ignoring
case; else Finished if `finished`; else Paused if `pausing` or `paused`; else
Ready if `ready` and `operational`; else Idle); in particular all flags false
and an empty text give `Idle`. -/
theorem fallback_refines_reference (res : PrinterStateResponse)
    (hls : res.Flags.LinkState = "") :
    printerStateFromStateResponse res = referenceFallback res ∧
      (res = ⟨"", ⟨false, false, false, false, false, false, false, false, false, false,
          false, ""⟩⟩ → printerStateFromStateResponse res = PrinterStateIdle) := by
  have href : printerStateFromStateResponse res = referenceFallback res := by
    rw [printerStateFromStateResponse_fallback res hls]
    unfold referenceFallback fallbackRules
    simp only [List.find?]
    cases res.Flags.Error <;> cases equalFold res.Text "BUSY" <;> cases res.Flags.Finished <;>
      cases (res.Flags.Pausing || res.Flags.Paused) <;>
      cases (res.Flags.Ready && res.Flags.Operational) <;> rfl
  refine ⟨href, ?_⟩
  rintro rfl
  decide

/-- Witness for C3, at the payload with every flag false and empty text. -/
theorem fallback_refines_reference_witness :
    printerStateFromStateResponse
        ⟨"", ⟨false, false, false, false, false, false, false, false, false, false, false,
          ""⟩⟩ =
      referenceFallback
        ⟨"", ⟨false, false, false, false, false, false, false, false, false, false, false,
          ""⟩⟩ ∧
    printerStateFromStateResponse
        ⟨"", ⟨false, false, false, false, false, false, false, false, false, false, false,
          ""⟩⟩ = PrinterStateIdle :=
  ⟨(fallback_refines_reference _ rfl).1, (fallback_refines_reference _ rfl).2 rfl⟩

/-- C4: with an empty `flags.link_state` and `flags.error` set the
classification is `Error`, whatever the text and the other ten flags are. -/
theorem error_dominates (res : PrinterStateResponse) (hls : res.Flags.LinkState = "")
    (herr : res.Flags.Error = true) :
    printerStateFromStateResponse res = PrinterStateError := by
  rw [printerStateFromStateResponse_fallback res hls, herr]
  rfl

/-- Witness for C4: text `BUSY`, `error` and `finished` (and every other flag)
set. -/
theorem error_dominates_witness :
    printerStateFromStateResponse
        ⟨"BUSY", ⟨true, true, true, true, true, true, true, true, true, true, true, ""⟩⟩
      = PrinterStateError :=
  error_dominates _ rfl rfl

/-- C5: with an empty `flags.link_state` and `flags.error` clear the
classification is `Busy` exactly when `state.text` equals `BUSY` ignoring
letter case; no flag other than `error` takes part. -/
theorem busy_iff_text (res : PrinterStateResponse) (hls : res.Flags.LinkState = "")
    (herr : res.Flags.Error = false) :
    printerStateFromStateResponse res = PrinterStateBusy ↔ equalFold res.Text "BUSY" = true := by
  rw [printerStateFromStateResponse_fallback res hls, herr]
  cases equalFold res.Text "BUSY" <;> cases res.Flags.Finished <;>
    cases (res.Flags.Pausing || res.Flags.Paused) <;>
    cases (res.Flags.Ready && res.Flags.Operational) <;> decide

/-- Witness for C5: `bUsY` with `finished`, `paused`, `pausing`, `ready` and
`operational` set (and `busy` clear) is `Busy`; an empty text with only
`flags.busy` set is not. -/
theorem busy_iff_text_witness :
    printerStateFromStateResponse
        ⟨"bUsY", ⟨true, true, false, false, true, false, false, false, true, false, true, ""⟩⟩
      = PrinterStateBusy ∧
    printerStateFromStateResponse
        ⟨"", ⟨false, false, false, false, false, false, false, false, false, true, false, ""⟩⟩
      ≠ PrinterStateBusy :=
  ⟨(busy_iff_text _ rfl rfl).2 (by decide),
    fun h => absurd ((busy_iff_text _ rfl rfl).1 h) (by decide)⟩

/-- C6: with an empty `flags.link_state`, `flags.error` clear, a text that is not
`BUSY` ignoring case, and `flags.finished` set, the classification is
`Finished`, whatever `paused`, `pausing`, `ready`, `operational` and the
remaining flags are. -/
theorem finished_dominates_paused (res : PrinterStateResponse)
    (hls : res.Flags.LinkState = "") (herr : res.Flags.Error = false)
    (htext : equalFold res.Text "BUSY" = false) (hfin : res.Flags.Finished = true) :
    printerStateFromStateResponse res = PrinterStateFinished := by
  rw [printerStateFromStateResponse_fallback res hls, herr, htext, hfin]
  rfl

/-- Witness for C6: `finished` together with `paused`, `pausing`, `ready` and
`operational`. -/
theorem finished_dominates_paused_witness :
    printerStateFromStateResponse
        ⟨"", ⟨true, true, false, false, true, false, false, false, true, false, true, ""⟩⟩
      = PrinterStateFinished :=
  finished_dominates_paused _ rfl rfl (by decide) rfl

/-- C7: with an empty `flags.link_state`, a classification as `Ready` means
that `ready` and `operational` are both set (and `error`, `finished`,
`pausing`, `paused` are clear and the text is not `BUSY`); when no earlier
branch matches, `ready` without `operational` is `Idle`, and so is
`operational` without `ready`. -/
theorem ready_requires_both (res : PrinterStateResponse) (hls : res.Flags.LinkState = "") :
    (printerStateFromStateResponse res = PrinterStateReady →
      res.Flags.Ready = true ∧ res.Flags.Operational = true ∧ res.Flags.Error = false ∧
        res.Flags.Finished = false ∧ res.Flags.Pausing = false ∧ res.Flags.Paused = false ∧
        equalFold res.Text "BUSY" = false) ∧
    (res.Flags.Error = false → equalFold res.Text "BUSY" = false →
      res.Flags.Finished = false → res.Flags.Pausing = false → res.Flags.Paused = false →
      (res.Flags.Ready = true → res.Flags.Operational = false →
        printerStateFromStateResponse res = PrinterStateIdle) ∧
      (res.Flags.Operational = true → res.Flags.Ready = false →
        printerStateFromStateResponse res = PrinterStateIdle)) := by
  rw [printerStateFromStateResponse_fallback res hls]
  constructor
  · cases res.Flags.Error <;> cases equalFold res.Text "BUSY" <;>
      cases res.Flags.Finished <;> cases res.Flags.Pausing <;> cases res.Flags.Paused <;>
      cases res.Flags.Ready <;> cases res.Flags.Operational <;> decide
  · intro h1 h2 h3 h4 h5
    rw [h1, h2, h3, h4, h5]
    constructor
    · intro h6 h7
      rw [h6, h7]
      rfl
    · intro h6 h7
      rw [h6, h7]
      rfl

/-- Witness for C7: `ready` and `operational` give `Ready` and the flags read
back; `ready` alone and `operational` alone give `Idle`. -/
theorem ready_requires_both_witness :
    (true = true ∧ true = true ∧ false = false ∧ false = false ∧ false = false ∧
      false = false ∧ equalFold "" "BUSY" = false) ∧
    printerStateFromStateResponse
        ⟨"", ⟨false, false, true, false, false, false, false, false, true, false, false, ""⟩⟩
      = PrinterStateIdle ∧
    printerStateFromStateResponse
        ⟨"", ⟨true, false, true, false, false, false, false, false, false, false, false, ""⟩⟩
      = PrinterStateIdle :=
  ⟨(ready_requires_both
      ⟨"", ⟨true, false, false, false, false, false, false, false, true, false, false, ""⟩⟩
      rfl).1 (by decide),
    ((ready_requires_both
      ⟨"", ⟨false, false, true, false, false, false, false, false, true, false, false, ""⟩⟩
      rfl).2 rfl (by decide) rfl rfl rfl).1 rfl rfl,
    ((ready_requires_both
      ⟨"", ⟨true, false, true, false, false, false, false, false, false, false, false, ""⟩⟩
      rfl).2 rfl (by decide) rfl rfl rfl).2 rfl rfl⟩

/-- C8: the classification is total and closed: for every state payload the
result is one of the ten declared states and is not the empty string, and so
is the `State` field of the printer built by `PrinterFromPrinterResponse` from
any response. -/
theorem state_is_one_of_ten (st : PrinterStateResponse) (res : PrinterResponse) :
    (printerStateFromStateResponse st ∈ printerStates ∧
      printerStateFromStateResponse st ≠ "") ∧
    ((PrinterFromPrinterResponse res).State ∈ printerStates ∧
      (PrinterFromPrinterResponse res).State ≠ "") := by
  have key : ∀ s : PrinterStateResponse,
      printerStateFromStateResponse s ∈ printerStates ∧
        printerStateFromStateResponse s ≠ "" := by
    intro s
    unfold printerStateFromStateResponse
    repeat' apply ite_of_both (fun x : PrinterState => x ∈ printerStates ∧ x ≠ "")
    all_goals exact ⟨by decide, by decide⟩
  refine ⟨key st, ?_⟩
  have hstate : (PrinterFromPrinterResponse res).State
      = printerStateFromStateResponse res.State := by
    unfold PrinterFromPrinterResponse
    exact foldl_temperatureStep_State _ _
  rw [hstate]
  exact key res.State

/-- C9: two state payloads that agree on `state.text`, on `link_state` and on
the flags `operational`, `paused`, `pausing`, `error`, `ready`, `busy`,
`finished` are classified alike, whatever their `printing`, `cancelling`,
`sdReady` and `closedOnError` flags are. -/
theorem informational_flags_ignored (a b : PrinterStateResponse)
    (htext : a.Text = b.Text) (hls : a.Flags.LinkState = b.Flags.LinkState)
    (hop : a.Flags.Operational = b.Flags.Operational)
    (hpaused : a.Flags.Paused = b.Flags.Paused)
    (hpausing : a.Flags.Pausing = b.Flags.Pausing)
    (herr : a.Flags.Error = b.Flags.Error)
    (hready : a.Flags.Ready = b.Flags.Ready)
    (hbusy : a.Flags.Busy = b.Flags.Busy)
    (hfin : a.Flags.Finished = b.Flags.Finished) :
    printerStateFromStateResponse a = printerStateFromStateResponse b := by
  have _ := hbusy
  unfold printerStateFromStateResponse
  rw [htext, hls, hop, hpaused, hpausing, herr, hready, hfin]

/-- Witness for C9: two payloads that differ in all four of `printing`,
`cancelling`, `sdReady`, `closedOnError`. -/
theorem informational_flags_ignored_witness :
    printerStateFromStateResponse
        ⟨"Operational", ⟨true, false, true, true, false, true, false, true, true, false, false,
          ""⟩⟩ =
      printerStateFromStateResponse
        ⟨"Operational", ⟨true, false, false, false, false, false, false, false, true, false,
          false, ""⟩⟩ :=
  informational_flags_ignored _ _ rfl rfl rfl rfl rfl rfl rfl rfl rfl

/-! ## Snapshot assembly -/

/-- C10: for every response, the printer built by `PrinterFromPrinterResponse`
has `ToolCount` equal to the length of `ToolTemperatures`, and both equal the
number of keys of the temperature map that start with `tool`. -/
theorem toolCount_eq_len_toolTemperatures (res : PrinterResponse) :
    (PrinterFromPrinterResponse res).ToolCount
        = ((PrinterFromPrinterResponse res).ToolTemperatures.len : Int) ∧
      (PrinterFromPrinterResponse res).ToolTemperatures.len
        = (res.Temperature.keys.filter (fun k => stringsHasPrefix k "tool")).length := by
  unfold PrinterFromPrinterResponse
  obtain ⟨h1, h2⟩ := foldl_temperatureStep_tools res.Temperature.entries
    res.Temperature.nodupKeys
    { State := printerStateFromStateResponse res.State
      Material := res.Telemetry.Material
      PrintSpeed := res.Telemetry.PrintSpeed
      ToolCount := 0
      BedTemperature := ⟨0, 0⟩
      ToolTemperatures := ∅
      Response := res }
    (fun k _ => AList.not_mem_empty k)
  simp only [GoMap.len, AList.empty_entries, List.length_nil, zero_add] at h1 h2
  simp only [GoMap.len, AList.keys]
  rw [h1, h2]
  exact ⟨rfl, rfl⟩

/-- C11: for every response, `ToolTemperatures` holds exactly the keys of the
temperature map with prefix `tool`, each with the `Actual` and `Target` of its
reading; every other sensor name is absent.  On the example payload (`bed`,
`tool0`, `tool1`, `chamber`) this gives `ToolCount = 2`, `tool0` at 210/215 and
`tool1` at 25/0, with `bed` and `chamber` absent. -/
theorem toolTemperatures_exactly_tool_sensors (res : PrinterResponse) (k : String) :
    ((PrinterFromPrinterResponse res).ToolTemperatures.lookup k
        = if stringsHasPrefix k "tool" then
            (res.Temperature.lookup k).map (fun r => (⟨r.Actual, r.Target⟩ : Temperature))
          else none) ∧
      (k ∈ (PrinterFromPrinterResponse res).ToolTemperatures
        ↔ k ∈ res.Temperature ∧ stringsHasPrefix k "tool" = true) ∧
      ((PrinterFromPrinterResponse exampleResponse).ToolCount = 2 ∧
        (PrinterFromPrinterResponse exampleResponse).ToolTemperatures.len = 2 ∧
        (PrinterFromPrinterResponse exampleResponse).ToolTemperatures.lookup "tool0"
          = some ⟨⟨0x406A400000000000⟩, ⟨0x406AE00000000000⟩⟩ ∧
        (PrinterFromPrinterResponse exampleResponse).ToolTemperatures.lookup "tool1"
          = some ⟨⟨0x4039000000000000⟩, ⟨0⟩⟩ ∧
        (PrinterFromPrinterResponse exampleResponse).ToolTemperatures.lookup "bed" = none ∧
        (PrinterFromPrinterResponse exampleResponse).ToolTemperatures.lookup "chamber"
          = none) := by
  have hlookup : (PrinterFromPrinterResponse res).ToolTemperatures.lookup k
      = if stringsHasPrefix k "tool" then
          (res.Temperature.lookup k).map (fun r => (⟨r.Actual, r.Target⟩ : Temperature))
        else none := by
    unfold PrinterFromPrinterResponse
    rw [foldl_temperatureStep_lookup _ res.Temperature.nodupKeys]
    simp only [AList.lookup_empty, AList.lookup]
    by_cases htool : stringsHasPrefix k "tool" = true
    · rw [if_pos htool, if_pos htool]
      cases List.dlookup k res.Temperature.entries <;> rfl
    · rw [if_neg htool, if_neg htool]
      rfl
  refine ⟨hlookup, ?_, by decide⟩
  rw [← AList.lookup_isSome, hlookup, ← AList.lookup_isSome]
  by_cases htool : stringsHasPrefix k "tool" = true
  · rw [if_pos htool]
    simp [htool]
  · rw [if_neg htool]
    simp [htool]

/-- C12: for every response, `BedTemperature` is the `Actual` and `Target` of
the temperature entry named exactly `bed` when there is one and the zero value
otherwise; sensors named `Bed` or `bed0` do not count. -/
theorem bedTemperature_from_bed_sensor (res : PrinterResponse) :
    ((PrinterFromPrinterResponse res).BedTemperature
        = match res.Temperature.lookup "bed" with
          | some r => ⟨r.Actual, r.Target⟩
          | none => ⟨⟨0⟩, ⟨0⟩⟩) ∧
      (PrinterFromPrinterResponse exampleResponse).BedTemperature
        = ⟨⟨0x404E000000000000⟩, ⟨0x404E000000000000⟩⟩ ∧
      (PrinterFromPrinterResponse
          { exampleResponse with Temperature := nearBedTemperature }).BedTemperature
        = ⟨⟨0⟩, ⟨0⟩⟩ := by
  refine ⟨?_, by decide, by decide⟩
  unfold PrinterFromPrinterResponse
  rw [foldl_temperatureStep_bed _ res.Temperature.nodupKeys]
  rfl

/-- C13: for every response `res`, the printer built from it has
`Material = res.Telemetry.Material`, `PrintSpeed = res.Telemetry.PrintSpeed`
(any integer, unchanged) and `Response = res`. -/
theorem telemetry_and_raw_passed_through (res : PrinterResponse) :
    (PrinterFromPrinterResponse res).Material = res.Telemetry.Material ∧
      (PrinterFromPrinterResponse res).PrintSpeed = res.Telemetry.PrintSpeed ∧
      (PrinterFromPrinterResponse res).Response = res ∧
      (PrinterFromPrinterResponse
          { exampleResponse with
            Telemetry := { exampleResponse.Telemetry with PrintSpeed := -250, Material := "" }
          }).PrintSpeed = -250 := by
  unfold PrinterFromPrinterResponse
  obtain ⟨h1, h2, h3⟩ := foldl_temperatureStep_frame res.Temperature.entries
    { State := printerStateFromStateResponse res.State
      Material := res.Telemetry.Material
      PrintSpeed := res.Telemetry.PrintSpeed
      ToolCount := 0
      BedTemperature := ⟨0, 0⟩
      ToolTemperatures := ∅
      Response := res }
  exact ⟨h1, h2, h3, by decide⟩

/-- C20: with an empty `flags.link_state` the classification is one of
`Error`, `Busy`, `Finished`, `Paused`, `Ready`, `Idle` and never `Printing`,
`Stopped`, `Attention` or `Unknown`; a payload with `flags.printing` set (and
`error`, `finished`, `pausing`, `paused` clear, text not `BUSY`) is `Ready`
when `ready` and `operational` are both set and `Idle` otherwise. -/
theorem fallback_reaches_six_states (res : PrinterStateResponse)
    (hls : res.Flags.LinkState = "") :
    printerStateFromStateResponse res ∈
        [PrinterStateError, PrinterStateBusy, PrinterStateFinished, PrinterStatePaused,
          PrinterStateReady, PrinterStateIdle] ∧
      printerStateFromStateResponse res ∉
        [PrinterStatePrinting, PrinterStateStopped, PrinterStateAttention,
          PrinterStateUnknown] ∧
      (res.Flags.Printing = true → res.Flags.Error = false → res.Flags.Finished = false →
        res.Flags.Pausing = false → res.Flags.Paused = false →
        equalFold res.Text "BUSY" = false →
        printerStateFromStateResponse res
            = (if res.Flags.Ready && res.Flags.Operational then PrinterStateReady
              else PrinterStateIdle) ∧
          printerStateFromStateResponse res ≠ PrinterStatePrinting) := by
  rw [printerStateFromStateResponse_fallback res hls]
  refine ⟨?_, ?_, ?_⟩
  · cases res.Flags.Error <;> cases equalFold res.Text "BUSY" <;>
      cases res.Flags.Finished <;> cases (res.Flags.Pausing || res.Flags.Paused) <;>
      cases (res.Flags.Ready && res.Flags.Operational) <;> decide
  · cases res.Flags.Error <;> cases equalFold res.Text "BUSY" <;>
      cases res.Flags.Finished <;> cases (res.Flags.Pausing || res.Flags.Paused) <;>
      cases (res.Flags.Ready && res.Flags.Operational) <;> decide
  · intro _ h1 h2 h3 h4 h5
    rw [h1, h2, h3, h4, h5]
    cases (res.Flags.Ready && res.Flags.Operational) <;> decide

/-- Witness for C20: a payload with text `Printing` and `flags.printing` set is
`Ready` with `ready` and `operational`, `Idle` with `ready` alone. -/
theorem fallback_reaches_six_states_witness :
    printerStateFromStateResponse
        ⟨"Printing", ⟨true, false, true, false, false, true, false, false, true, false, false,
          ""⟩⟩ = PrinterStateReady ∧
      printerStateFromStateResponse
        ⟨"Printing", ⟨false, false, true, false, false, true, false, false, true, false,
          false, ""⟩⟩ = PrinterStateIdle ∧
      printerStateFromStateResponse
        ⟨"Printing", ⟨false, false, true, false, false, true, false, false, true, false,
          false, ""⟩⟩ ≠ PrinterStatePrinting :=
  ⟨((fallback_reaches_six_states _ rfl).2.2 rfl rfl rfl rfl rfl (by decide)).1,
    ((fallback_reaches_six_states _ rfl).2.2 rfl rfl rfl rfl rfl (by decide)).1,
    ((fallback_reaches_six_states _ rfl).2.2 rfl rfl rfl rfl rfl (by decide)).2⟩

/-! ## Response handling in `Client.do` -/

/-- Against C14 as stated: a completed request answered with status 600, which
is not below 400, is not turned into an `APIError`; with a nil `result` the
call returns nil. -/
theorem status_600_is_not_an_api_error :
    (600 : Int) ≥ 400 ∧
      ((NewClient [.WithEndpoint "http://host/api"]).do (exampleWorld 600 (.ok [123, 125]))
        "GET" "/printer" ∅ (none : Option Unit) (none : Option String)).err = none ∧
      ((NewClient [.WithEndpoint "http://host/api"]).do (exampleWorld 600 (.ok [123, 125]))
        "GET" "/printer" ∅ (none : Option Unit) (some "")).err
        ≠ some (.apiError ⟨600⟩) := by
  decide

/-- C14, amended: for a completed request with response status `s`, `Client.do`
returns an `APIError` exactly when `400 ≤ s ≤ 599`, and that error carries
`s`; for every other status (below 400 or above 599) the response is a
success: no `APIError`, nil is returned when `result` is nil, and the body is
read for decoding when `result` is not nil. -/
theorem api_error_iff_status_400_to_599 {U P R : Type} (w : World U P R) (c : Client)
    (httpMethod path : String) (params : GoMap (List String)) (payload : Option P)
    (result : Option R) (httpReq : HTTPRequest) (httpRes : HTTPResponse)
    (hreq : c.buildRequest w httpMethod path params payload = .ok httpReq)
    (hres : w.roundTrip httpReq = .ok httpRes) :
    ((∃ e, (c.do w httpMethod path params payload result).err = some (.apiError e))
        ↔ (400 ≤ httpRes.StatusCode ∧ httpRes.StatusCode ≤ 599)) ∧
      ((400 ≤ httpRes.StatusCode ∧ httpRes.StatusCode ≤ 599) →
        (c.do w httpMethod path params payload result).err
          = some (.apiError ⟨httpRes.StatusCode⟩)) ∧
      ((httpRes.StatusCode < 400 ∨ 599 < httpRes.StatusCode) →
        (result = none → (c.do w httpMethod path params payload result).err = none) ∧
        (result ≠ none → (c.do w httpMethod path params payload result).bodyRead = true)) := by
  rw [Client.do_eq_handleResponse w c httpMethod path params payload result httpReq httpRes
    hreq hres]
  by_cases hs : httpRes.StatusCode ≥ 400 ∧ httpRes.StatusCode ≤ 599
  · have hval : Client.handleResponse w httpReq httpRes result
        = ⟨some (.apiError ⟨httpRes.StatusCode⟩), result, some httpReq, false⟩ := by
      unfold Client.handleResponse
      rw [if_pos hs]
    rw [hval]
    refine ⟨⟨fun _ => hs, fun _ => ⟨_, rfl⟩⟩, fun _ => rfl, ?_⟩
    intro hout
    omega
  · have hval : Client.handleResponse w httpReq httpRes result
        = match result with
          | none => ⟨none, none, some httpReq, false⟩
          | some r =>
            match httpRes.Body with
            | .error err =>
              ⟨some (.readingResponseBody httpReq.URL err), some r, some httpReq, true⟩
            | .ok body =>
              match w.unmarshal body r with
              | (r2, some err) =>
                ⟨some (.unmarshalJSONResponse httpReq.URL err), some r2, some httpReq, true⟩
              | (r2, none) => ⟨none, some r2, some httpReq, true⟩ := by
      unfold Client.handleResponse
      rw [if_neg hs]
    rw [hval]
    refine ⟨⟨?_, fun h => absurd h hs⟩, fun h => absurd h hs, fun _ => ⟨?_, ?_⟩⟩
    · rintro ⟨e, he⟩
      exfalso
      cases result with
      | none => simp at he
      | some r =>
        simp only at he
        cases hb : httpRes.Body with
        | error err => rw [hb] at he; simp at he
        | ok body =>
          rw [hb] at he
          simp only at he
          split at he <;> simp at he
    · rintro rfl
      rfl
    · intro hne
      cases result with
      | none => exact absurd rfl hne
      | some r =>
        simp only
        cases httpRes.Body with
        | error err => rfl
        | ok body =>
          simp only
          split <;> rfl

/-- Witness for C14, amended: status 404 is an `APIError` carrying 404. -/
theorem api_error_iff_status_400_to_599_witness :
    ((NewClient [.WithEndpoint "http://host/api"]).do (exampleWorld 404 (.ok [123, 125]))
        "GET" "/printer" ∅ (none : Option Unit) (some "")).err
      = some (.apiError ⟨404⟩) :=
  (api_error_iff_status_400_to_599 (exampleWorld 404 (.ok [123, 125]))
    (NewClient [.WithEndpoint "http://host/api"]) "GET" "/printer" ∅ none (some "")
    ⟨"GET", "http://host/api/printer", [("Content-Type", "application/json")], none⟩
    ⟨404, .ok [123, 125]⟩ rfl rfl).2.1 (by decide)

/-- C15: for a completed request with response status `s` in `[400, 599]`,
`Client.do` returns exactly `APIError{StatusCode: s}`, does not read the
response body and leaves the value behind `result` as it was, whatever the
body is. -/
theorem api_error_carries_status_and_skips_body {U P R : Type} (w : World U P R)
    (c : Client) (httpMethod path : String) (params : GoMap (List String))
    (payload : Option P) (result : Option R) (httpReq : HTTPRequest)
    (httpRes : HTTPResponse)
    (hreq : c.buildRequest w httpMethod path params payload = .ok httpReq)
    (hres : w.roundTrip httpReq = .ok httpRes)
    (hs : 400 ≤ httpRes.StatusCode ∧ httpRes.StatusCode ≤ 599) :
    (c.do w httpMethod path params payload result).err
        = some (.apiError ⟨httpRes.StatusCode⟩) ∧
      (c.do w httpMethod path params payload result).bodyRead = false ∧
      (c.do w httpMethod path params payload result).result = result := by
  rw [Client.do_eq_handleResponse w c httpMethod path params payload result httpReq httpRes
    hreq hres]
  unfold Client.handleResponse
  rw [if_pos hs]
  exact ⟨rfl, rfl, rfl⟩

/-- Witness for C15: status 503 with a body that is valid JSON. -/
theorem api_error_carries_status_and_skips_body_witness :
    ((NewClient [.WithEndpoint "http://host/api"]).do (exampleWorld 503 (.ok [123, 125]))
        "GET" "/printer" ∅ (none : Option Unit) (some "before")).err
        = some (.apiError ⟨503⟩) ∧
      ((NewClient [.WithEndpoint "http://host/api"]).do (exampleWorld 503 (.ok [123, 125]))
        "GET" "/printer" ∅ (none : Option Unit) (some "before")).bodyRead = false ∧
      ((NewClient [.WithEndpoint "http://host/api"]).do (exampleWorld 503 (.ok [123, 125]))
        "GET" "/printer" ∅ (none : Option Unit) (some "before")).result = some "before" :=
  api_error_carries_status_and_skips_body (exampleWorld 503 (.ok [123, 125]))
    (NewClient [.WithEndpoint "http://host/api"]) "GET" "/printer" ∅ none (some "before")
    ⟨"GET", "http://host/api/printer", [("Content-Type", "application/json")], none⟩
    ⟨503, .ok [123, 125]⟩ rfl rfl (by decide)

/-- C16: for a completed request with a response status below 400: with a
non-nil `result` and a body that fails JSON decoding, `Client.do` returns the
unmarshal error, which is not an `APIError`; with a body that decodes it
returns nil; with a nil `result` it returns nil without reading the body. -/
theorem decode_error_is_not_api_error {U P R : Type} (w : World U P R) (c : Client)
    (httpMethod path : String) (params : GoMap (List String)) (payload : Option P)
    (httpReq : HTTPRequest) (httpRes : HTTPResponse)
    (hreq : c.buildRequest w httpMethod path params payload = .ok httpReq)
    (hres : w.roundTrip httpReq = .ok httpRes) (hs : httpRes.StatusCode < 400) :
    (∀ (r r2 : R) (body : Bytes) (err : String), httpRes.Body = .ok body →
        w.unmarshal body r = (r2, some err) →
        (c.do w httpMethod path params payload (some r)).err
            = some (.unmarshalJSONResponse httpReq.URL err) ∧
          ∀ e, (c.do w httpMethod path params payload (some r)).err ≠ some (.apiError e)) ∧
      (∀ (r r2 : R) (body : Bytes), httpRes.Body = .ok body →
        w.unmarshal body r = (r2, none) →
        (c.do w httpMethod path params payload (some r)).err = none ∧
          (c.do w httpMethod path params payload (some r)).result = some r2) ∧
      ((c.do w httpMethod path params payload (none : Option R)).err = none ∧
        (c.do w httpMethod path params payload (none : Option R)).bodyRead = false) := by
  have hns : ¬(httpRes.StatusCode ≥ 400 ∧ httpRes.StatusCode ≤ 599) := by omega
  refine ⟨?_, ?_, ?_⟩
  · intro r r2 body err hbody hun
    rw [Client.do_eq_handleResponse w c httpMethod path params payload (some r) httpReq
      httpRes hreq hres]
    unfold Client.handleResponse
    rw [if_neg hns]
    simp [hbody, hun]
  · intro r r2 body hbody hun
    rw [Client.do_eq_handleResponse w c httpMethod path params payload (some r) httpReq
      httpRes hreq hres]
    unfold Client.handleResponse
    rw [if_neg hns]
    simp [hbody, hun]
  · rw [Client.do_eq_handleResponse w c httpMethod path params payload none httpReq
      httpRes hreq hres]
    unfold Client.handleResponse
    rw [if_neg hns]
    exact ⟨rfl, rfl⟩

/-- Witness for C16: status 200 with the body `{` is an unmarshal error and not
an `APIError`. -/
theorem decode_error_is_not_api_error_witness :
    ((NewClient [.WithEndpoint "http://host/api"]).do (exampleWorld 200 (.ok [123]))
        "GET" "/printer" ∅ (none : Option Unit) (some "")).err
        = some (.unmarshalJSONResponse "http://host/api/printer" "invalid character") ∧
      ∀ e, ((NewClient [.WithEndpoint "http://host/api"]).do (exampleWorld 200 (.ok [123]))
        "GET" "/printer" ∅ (none : Option Unit) (some "")).err ≠ some (.apiError e) :=
  (decode_error_is_not_api_error (exampleWorld 200 (.ok [123]))
    (NewClient [.WithEndpoint "http://host/api"]) "GET" "/printer" ∅ none
    ⟨"GET", "http://host/api/printer", [("Content-Type", "application/json")], none⟩
    ⟨200, .ok [123]⟩ rfl rfl (by decide)).1 "" "" [123] "invalid character" rfl
    (by decide)

/-! ## Endpoint normalisation and the API key header -/

/-- C17: for every endpoint string `e`, `WithEndpoint(e)` stores `e` without its
trailing slashes followed by one slash: `e` is some `t` not ending in `/`
followed by `n` slashes, and the stored endpoint is `t` followed by `/`; it
ends in `/` and does not end in `//`.  The empty string and `///` are both
stored as `/`. -/
theorem withEndpoint_single_trailing_slash (e : String) (o : ClientOptions) :
    (∃ (t : String) (n : Nat),
        e.data = t.data ++ List.replicate n '/' ∧ stringsHasSuffix t "/" = false ∧
        ((clientOption.WithEndpoint e).ApplyToClientOptions o).Endpoint = t ++ "/") ∧
      stringsHasSuffix ((clientOption.WithEndpoint e).ApplyToClientOptions o).Endpoint "/"
        = true ∧
      stringsHasSuffix ((clientOption.WithEndpoint e).ApplyToClientOptions o).Endpoint "//"
        = false ∧
      ((clientOption.WithEndpoint e).ApplyToClientOptions o).APIKey = o.APIKey ∧
      ((clientOption.WithEndpoint "").ApplyToClientOptions o).Endpoint = "/" ∧
      ((clientOption.WithEndpoint "///").ApplyToClientOptions o).Endpoint = "/" := by
  have hnot := stringsTrimRight_not_hasSuffix e
  obtain ⟨n, hn⟩ := stringsTrimRight_split e
  have hempty : stringsTrimRight "" "/" ++ "/" = "/" := by decide
  have hslashes : stringsTrimRight "///" "/" ++ "/" = "/" := by decide
  refine ⟨⟨stringsTrimRight e "/", n, hn, hnot, rfl⟩, ?_, ?_, rfl, hempty, hslashes⟩
  · show stringsHasSuffix (stringsTrimRight e "/" ++ "/") "/" = true
    unfold stringsHasSuffix
    rw [List.isSuffixOf_iff_suffix, String.data_append]
    exact List.suffix_append _ _
  · show stringsHasSuffix (stringsTrimRight e "/" ++ "/") "//" = false
    rw [Bool.eq_false_iff]
    intro h
    unfold stringsHasSuffix at h
    rw [List.isSuffixOf_iff_suffix, String.data_append] at h
    obtain ⟨pre, hpre⟩ := h
    have hdata : ("//" : String).data = ['/'] ++ ['/'] := rfl
    have hone : ("/" : String).data = ['/'] := rfl
    rw [hdata, hone, ← List.append_assoc] at hpre
    have htrim : (stringsTrimRight e "/").data = pre ++ ['/'] :=
      (List.append_inj_left' hpre rfl).symm
    have hsuf : stringsHasSuffix (stringsTrimRight e "/") "/" = true := by
      unfold stringsHasSuffix
      rw [List.isSuffixOf_iff_suffix, htrim, hone]
      exact List.suffix_append _ _
    rw [hnot] at hsuf
    exact Bool.noConfusion hsuf

/-- C19: a request built by `Client.do` carries the header `X-Api-Key` exactly
when the configured `APIKey` is not empty, its value is then the configured
key, and with an empty key the only header is `Content-Type`; a client built
without `WithAPIKey` has the empty key, and `WithAPIKey(key)` stores `key`. -/
theorem api_key_header_iff_key_configured {U P R : Type} (w : World U P R) (c : Client)
    (httpMethod path : String) (params : GoMap (List String)) (payload : Option P)
    (result : Option R) (httpReq : HTTPRequest)
    (hreq : c.buildRequest w httpMethod path params payload = .ok httpReq) :
    (c.do w httpMethod path params payload result).request = some httpReq ∧
      ((∃ v, ("X-Api-Key", v) ∈ httpReq.Header) ↔ c.opts.APIKey ≠ "") ∧
      (∀ v, ("X-Api-Key", v) ∈ httpReq.Header → v = c.opts.APIKey) ∧
      (c.opts.APIKey ≠ "" → httpReq.Header
        = [("X-Api-Key", c.opts.APIKey), ("Content-Type", "application/json")]) ∧
      (c.opts.APIKey = "" → httpReq.Header = [("Content-Type", "application/json")]) ∧
      (∀ eps : List String, (NewClient (eps.map clientOption.WithEndpoint)).opts.APIKey = "") ∧
      (∀ (key : String) (o : ClientOptions),
        ((clientOption.WithAPIKey key).ApplyToClientOptions o).APIKey = key) := by
  have hheader : httpReq.Header
      = (if stringsLen c.opts.APIKey > 0 then [("X-Api-Key", c.opts.APIKey)] else [])
        ++ [("Content-Type", "application/json")] := by
    unfold Client.buildRequest at hreq
    cases hp : w.urlParse c.opts.Endpoint with
    | error err => rw [hp] at hreq; simp at hreq
    | ok parsed =>
      rw [hp] at hreq
      simp only at hreq
      split at hreq
      · simp at hreq
      · split at hreq
        · simp at hreq
        · simp only [Except.ok.injEq] at hreq
          rw [← hreq]
  have hnever : ∀ (eps : List String) (o : ClientOptions),
      (List.foldl (fun o opt => clientOption.ApplyToClientOptions opt o) o
        (eps.map clientOption.WithEndpoint)).APIKey = o.APIKey := by
    intro eps
    induction eps with
    | nil => intro o; rfl
    | cons ep t ih =>
      intro o
      rw [List.map_cons, List.foldl_cons, ih]
      rfl
  refine ⟨Client.do_request w c httpMethod path params payload result httpReq hreq, ?_, ?_, ?_,
    ?_, fun eps => hnever eps ⟨"", ""⟩, fun _ _ => rfl⟩
  · rw [hheader]
    by_cases hk : c.opts.APIKey = ""
    · have hlen : ¬ stringsLen c.opts.APIKey > 0 := by
        rw [stringsLen_pos_iff]
        exact not_not.mpr hk
      rw [if_neg hlen]
      simp [hk]
    · have hlen : stringsLen c.opts.APIKey > 0 := (stringsLen_pos_iff _).mpr hk
      rw [if_pos hlen]
      simp [hk]
  · intro v hv
    rw [hheader] at hv
    split_ifs at hv <;> simp at hv
    exact hv
  · intro hk
    rw [hheader, if_pos ((stringsLen_pos_iff _).mpr hk)]
    rfl
  · intro hk
    have hlen : ¬ stringsLen c.opts.APIKey > 0 := by
      rw [stringsLen_pos_iff]
      exact not_not.mpr hk
    rw [hheader, if_neg hlen]
    rfl

/-- Witness for C19: the request of a client configured with the key `secret`. -/
theorem api_key_header_iff_key_configured_witness :
    ((NewClient [.WithEndpoint "http://host/api", .WithAPIKey "secret"]).do
        (exampleWorld 200 (.ok [123, 125])) "GET" "/printer" ∅ (none : Option Unit)
        (some "")).request
      = some ⟨"GET", "http://host/api/printer",
          [("X-Api-Key", "secret"), ("Content-Type", "application/json")], none⟩ :=
  (api_key_header_iff_key_configured (exampleWorld 200 (.ok [123, 125]))
    (NewClient [.WithEndpoint "http://host/api", .WithAPIKey "secret"]) "GET" "/printer" ∅
    none (some "")
    ⟨"GET", "http://host/api/printer",
      [("X-Api-Key", "secret"), ("Content-Type", "application/json")], none⟩ rfl).1

/-- C18: endpoint normalisation ignores trailing slashes and is idempotent:
`WithEndpoint` of `e` followed by `n` slashes stores what `WithEndpoint(e)`
stores, and normalising a stored endpoint again returns it.  Hence clients
built with `http://host/api` and `http://host/api/` are the same client and
`Client.do` does the same for both; a leading slash of the path makes no
difference either; and where the URL library resolves `printer` against
`http://host/api/` to `http://host/api/printer`, that is the URL of the
request for both endpoints and for both `/printer` and `printer`. -/
theorem endpoint_normalization_idempotent {U P R : Type} (w : World U P R) (c : Client)
    (e : String) (n : Nat) (o o2 : ClientOptions) (httpMethod path : String)
    (params : GoMap (List String)) (payload : Option P) (result : Option R) :
    ((clientOption.WithEndpoint ⟨e.data ++ List.replicate n '/'⟩).ApplyToClientOptions o
        = (clientOption.WithEndpoint e).ApplyToClientOptions o) ∧
      (((clientOption.WithEndpoint
            ((clientOption.WithEndpoint e).ApplyToClientOptions o).Endpoint).ApplyToClientOptions
          o2).Endpoint
        = ((clientOption.WithEndpoint e).ApplyToClientOptions o).Endpoint) ∧
      ((NewClient [.WithEndpoint "http://host/api"]).do w httpMethod "/printer" params payload
          result
        = (NewClient [.WithEndpoint "http://host/api/"]).do w httpMethod "/printer" params
          payload result) ∧
      (c.do w httpMethod ("/" ++ path) params payload result
        = c.do w httpMethod path params payload result) ∧
      (∀ u : U, w.urlParse "http://host/api/" = .ok u →
        w.urlString (w.resolveReference u "printer") = "http://host/api/printer" →
        ∀ (ep p : String) (httpReq : HTTPRequest),
          ep ∈ ["http://host/api", "http://host/api/"] → p ∈ ["/printer", "printer"] →
          (NewClient [.WithEndpoint ep]).buildRequest w httpMethod p ∅ payload = .ok httpReq →
          httpReq.URL = "http://host/api/printer") := by
  refine ⟨?_, ?_, ?_, ?_, ?_⟩
  · show ({ o with Endpoint := stringsTrimRight ⟨e.data ++ List.replicate n '/'⟩ "/" ++ "/" }
        : ClientOptions) = { o with Endpoint := stringsTrimRight e "/" ++ "/" }
    rw [stringsTrimRight_append_slashes]
  · show stringsTrimRight (stringsTrimRight e "/" ++ "/") "/" ++ "/"
        = stringsTrimRight e "/" ++ "/"
    have hone : stringsTrimRight e "/" ++ "/"
        = ⟨(stringsTrimRight e "/").data ++ List.replicate 1 '/'⟩ := rfl
    rw [hone, stringsTrimRight_append_slashes,
      stringsTrimRight_of_not_hasSuffix _ (stringsTrimRight_not_hasSuffix e)]
    exact hone
  · have hsame : NewClient [.WithEndpoint "http://host/api"]
        = NewClient [.WithEndpoint "http://host/api/"] := by decide
    rw [hsame]
  · unfold Client.do Client.buildRequest
    rw [stringsTrimLeft_slash_append]
  · intro u hparse hresolve ep p httpReq hep hp hreq
    have hendpoint : (NewClient [.WithEndpoint ep]).opts.Endpoint = "http://host/api/" := by
      simp only [List.mem_cons, List.mem_singleton, List.not_mem_nil, or_false] at hep
      rcases hep with rfl | rfl <;> decide
    have hpath : stringsTrimLeft p "/" = "printer" := by
      simp only [List.mem_cons, List.mem_singleton, List.not_mem_nil, or_false] at hp
      rcases hp with rfl | rfl <;> decide
    have hurl := Client.buildRequest_URL w (NewClient [.WithEndpoint ep]) httpMethod p ∅
      payload httpReq u hreq (by rw [hendpoint]; exact hparse)
    rw [hurl, hpath, hresolve]
    rfl

/-- Witness for C18: in the example world the request for endpoint
`http://host/api` and path `/printer` goes to `http://host/api/printer`. -/
theorem endpoint_normalization_idempotent_witness :
    (NewClient [.WithEndpoint "http://host/api"]).buildRequest
        (exampleWorld 200 (.ok [123, 125])) "GET" "/printer" ∅ (none : Option Unit)
        = .ok ⟨"GET", "http://host/api/printer", [("Content-Type", "application/json")],
          none⟩ ∧
      (⟨"GET", "http://host/api/printer", [("Content-Type", "application/json")], none⟩
        : HTTPRequest).URL = "http://host/api/printer" :=
  ⟨rfl,
    (endpoint_normalization_idempotent (exampleWorld 200 (.ok [123, 125])) (NewClient [])
      "http://host/api" 1 ⟨"", ""⟩ ⟨"", ""⟩ "GET" "printer" ∅ (none : Option Unit)
      (none : Option String)).2.2.2.2 "http://host/api/" rfl (by decide) "http://host/api"
      "/printer" _ (by decide) (by decide) rfl⟩

end linkclient
